import Mathlib

/-!
Verification of the movie-script parser (src/data/parse_movie_script.py).

The parser is embedded shallowly over `List Char`:
  * Python strings become `List Char`; `StringIO` buffers become `List Char`
    (a buffer whose cursor always sits at its end, so `tell() > 0` is
    non-emptiness);
  * Python `None`-able strings become `Option (List Char)`; Python truthiness
    of such a value ("not None and not empty") is `isTruthy`;
  * the `Counter` of statistics becomes a record of five `Nat` counters, each
    starting at 0 (a `Counter` reads 0 for an absent key);
  * fallible operations return `Except Unit`; the only fallible spot of the
    source is the indexing `line.split("\t")[1]` in `_get_scene_name`, whose
    `IndexError` branch becomes `Except.error ()`;
  * the regex `^\d+\t.+$` of `_get_scene_name` is modelled character by
    character (ASCII digits; `$` also matches just before one final newline;
    `.` does not match a newline).  Character classes are modelled at ASCII
    width (`Char.isDigit`, ASCII lower-casing, ASCII whitespace), which covers
    every input the claims are about.
-/

/-- Whitespace characters stripped by the Python `str.strip()` (ASCII part). -/
def isPySpace (c : Char) : Bool :=
  c = ' ' || c = '\t' || c = '\n' || c = '\r' || c = '\x0b' || c = '\x0c'

/-- Remove trailing characters satisfying `p`. -/
def dropTrailing (p : Char → Bool) (l : List Char) : List Char :=
  (l.reverse.dropWhile p).reverse

/-- Python `line.strip()`: remove leading and trailing whitespace. -/
def stripWs (l : List Char) : List Char :=
  dropTrailing isPySpace (l.dropWhile isPySpace)

/-- Python `line.strip("\n")`: remove leading and trailing newline characters. -/
def stripNL (l : List Char) : List Char :=
  dropTrailing (fun c => c = '\n') (l.dropWhile (fun c => c = '\n'))

/-- Python `str.lower()` (ASCII width). -/
def toLowerStr (l : List Char) : List Char :=
  l.map Char.toLower

/-- Token counter underlying `wordCount`; the boolean says whether the scan is
currently inside a token. -/
def wordCountAux : List Char → Bool → Nat
  | [], _ => 0
  | c :: cs, inTok =>
    if isPySpace c then wordCountAux cs false
    else (if inTok then 0 else 1) + wordCountAux cs true

/-- Python `len(s.split())`: the number of maximal whitespace-free tokens. -/
def wordCount (l : List Char) : Nat :=
  wordCountAux l false

/-- Python `_count_leading_tabs`: length of the leading run of tab characters. -/
def countLeadingTabs (l : List Char) : Nat :=
  (l.takeWhile (fun c => c = '\t')).length

/-- Python `line.split("\t")`: split on every tab, keeping empty segments. -/
def splitOnTab : List Char → List (List Char)
  | [] => [[]]
  | c :: cs =>
    let r := splitOnTab cs
    if c = '\t' then [] :: r else (c :: r.headD []) :: r.tail

/-- Matching of the Python regex `^\d+\t.+$` from `_get_scene_name`: a
non-empty run of digits, a tab, then at least one character, none of them a
newline; `$` additionally accepts one newline at the very end of the line. -/
def sceneHeadingMatch (line : List Char) : Bool :=
  let core := if line.getLast? = some '\n' then line.dropLast else line
  let ds := core.takeWhile Char.isDigit
  let rest := core.dropWhile Char.isDigit
  !ds.isEmpty && decide (rest.head? = some '\t') && decide (2 ≤ rest.length)
    && (rest.tail.all fun c => decide (c ≠ '\n'))

/-- Python `_get_scene_name`: `line.split("\t")[1]` when the regex matches,
`None` otherwise.  The `IndexError` branch of the indexing is `Except.error`. -/
def getSceneName (line : List Char) : Except Unit (Option (List Char)) :=
  if sceneHeadingMatch line then
    match (splitOnTab line)[1]? with
    | some name => Except.ok (some name)
    | none => Except.error ()
  else Except.ok none

/-- Python `_concatenate_text`: drop one trailing hyphen of the buffer when
present, then append the stripped, lower-cased line and a space separator. -/
def concatenateText (buffer newLine : List Char) : List Char :=
  let buf := if buffer.getLast? = some '-' then buffer.dropLast else buffer
  buf ++ toLowerStr (stripWs newLine) ++ [' ']

/-- Dialogue of the Python `Dialogue` dataclass. -/
structure Dialogue where
  character : List Char
  text : List Char
deriving Repr, DecidableEq

/-- Entry of the Python `Entry` dataclass. -/
structure Entry where
  description : List Char
  dialogue : Option Dialogue
deriving Repr, DecidableEq

/-- Scene of the Python `Scene` dataclass. -/
structure Scene where
  name : List Char
  entries : List Entry
deriving Repr, DecidableEq

/-- The five statistics the parser accumulates in its `Counter`; an absent key
of a `Counter` reads as 0, so every field starts at 0. -/
structure Stats where
  total_characters : Nat
  total_scenes : Nat
  total_dialogues : Nat
  total_words : Nat
  total_words_in_dialogues : Nat
deriving Repr, DecidableEq

/-- Result record of the Python `ParsedObject` dataclass. -/
structure ParsedObject where
  scenes : List Scene
  stats : Stats
  character_vocabulary : List (List Char)
deriving Repr, DecidableEq

/-- Mutable state of the Python `ParserState` dataclass. -/
structure ParserState where
  scene_text : List Char
  dialogue_text : List Char
  scene_name : List Char
  character_name : Option (List Char)
  stats : Stats
  character_vocabulary : List (List Char)
  scenes : List Scene
  entries : List Entry
deriving Repr, DecidableEq

/-- Python truthiness of an optional string: not `None` and not empty. -/
def isTruthy : Option (List Char) → Bool
  | none => false
  | some s => !s.isEmpty

/-- Python `set.add`: the vocabulary set is kept as a duplicate-free list. -/
def setAdd (v : List (List Char)) (s : List Char) : List (List Char) :=
  if s ∈ v then v else v ++ [s]

/-- Python `_add_entry`: flush the two buffers into an `Entry` (with a
dialogue exactly when the character slot is truthy), update the statistics and
the vocabulary, then clear both buffers and the character slot. -/
def addEntry (st : ParserState) : ParserState :=
  let sceneStr := st.scene_text
  let diaStr := st.dialogue_text
  let truthy := isTruthy st.character_name
  let dial : Option Dialogue :=
    if truthy then some ⟨st.character_name.getD [], diaStr⟩ else none
  let swc := wordCount sceneStr
  let dwc := wordCount diaStr
  let stats1 :=
    if truthy then
      { st.stats with
        total_dialogues := st.stats.total_dialogues + 1
        total_words_in_dialogues := st.stats.total_words_in_dialogues + dwc }
    else st.stats
  { st with
    entries := st.entries ++ [⟨sceneStr, dial⟩]
    stats := { stats1 with total_words := stats1.total_words + swc + dwc }
    character_vocabulary :=
      if truthy then setAdd st.character_vocabulary (st.character_name.getD [])
      else st.character_vocabulary
    character_name := none
    dialogue_text := []
    scene_text := [] }

/-- Guarded flush shared by `_add_scene` and the end of `_parse_text_script`:
`_add_entry` runs exactly when the description buffer is non-empty
(`scene_text.tell() > 0`) or the character slot is truthy. -/
def closePending (st : ParserState) : ParserState :=
  if st.scene_text ≠ [] ∨ isTruthy st.character_name then addEntry st else st

/-- Python `_add_scene`: flush a pending entry when the description buffer is
non-empty or the character slot is truthy, then append the current scene. -/
def addScene (st : ParserState) : ParserState :=
  let st1 := closePending st
  { st1 with scenes := st1.scenes ++ [⟨st1.scene_name, st1.entries⟩] }

/-- Initial `ParserState` built at the top of `_parse_text_script`. -/
def initState : ParserState where
  scene_text := []
  dialogue_text := []
  scene_name := "SCRIPT TITLE".toList
  character_name := none
  stats := ⟨0, 0, 0, 0, 0⟩
  character_vocabulary := []
  scenes := []
  entries := []

/-- Scene-heading branch of the loop: close the running scene, install the new
name and reset the buffers, the entry list and the character slot. -/
def sceneStep (st : ParserState) (name : List Char) : ParserState :=
  { addScene st with
    scene_name := name
    scene_text := []
    dialogue_text := []
    entries := []
    character_name := none }

/-- Character-cue branch (exactly 6 leading tabs): flush the running entry when
a character is truthy, then install the stripped line as the new character. -/
def cueStep (st : ParserState) (line : List Char) : ParserState :=
  let st1 := if isTruthy st.character_name then addEntry st else st
  { st1 with character_name := some (stripWs line) }

/-- Dialogue-continuation branch (4 or 5 leading tabs with a non-`None`
character): append the line to the dialogue buffer. -/
def dialogueStep (st : ParserState) (line : List Char) : ParserState :=
  { st with dialogue_text := concatenateText st.dialogue_text line }

/-- Description branch (every remaining line): flush the running entry when a
character is truthy (the Python code then also assigns `None` to the character
slot, which `_add_entry` already did), then append to the description buffer. -/
def descriptionStep (st : ParserState) (line : List Char) : ParserState :=
  let st1 := if isTruthy st.character_name then addEntry st else st
  { st1 with scene_text := concatenateText st1.scene_text line }

/-- Body of the `for line in file_like` loop of `_parse_text_script`: strip
newlines, skip empty lines, then dispatch on scene heading / character cue /
dialogue continuation / description. -/
def processLine (st : ParserState) (rawLine : List Char) : Except Unit ParserState :=
  let line := stripNL rawLine
  if line.isEmpty then Except.ok st
  else
    match getSceneName line with
    | Except.error e => Except.error e
    | Except.ok newSceneName =>
      if isTruthy newSceneName then
        Except.ok (sceneStep st (newSceneName.getD []))
      else
        let numTabs := countLeadingTabs line
        if numTabs = 6 then
          Except.ok (cueStep st line)
        else if (numTabs = 4 ∨ numTabs = 5) ∧ st.character_name.isSome then
          Except.ok (dialogueStep st line)
        else
          Except.ok (descriptionStep st line)

/-- Run the parsing loop over the whole input. -/
def runLines : ParserState → List (List Char) → Except Unit ParserState
  | st, [] => Except.ok st
  | st, l :: ls =>
    match processLine st l with
    | Except.ok st1 => runLines st1 ls
    | Except.error e => Except.error e

/-- Lexicographic comparison of strings by code point, as the Python `sorted`
uses on `str`. -/
def lexLe : List Char → List Char → Bool
  | [], _ => true
  | _ :: _, [] => false
  | a :: as, b :: bs => if a = b then lexLe as bs else decide (a < b)

/-- Python `sorted(character_vocabulary)`. -/
def sortVocab (v : List (List Char)) : List (List Char) :=
  List.insertionSort (fun a b => lexLe a b = true) v

/-- End-of-input scene close of `_parse_text_script`: the last scene is added
only when the description buffer is non-empty or the character slot is truthy. -/
def closeAtEnd (st : ParserState) : ParserState :=
  if st.scene_text ≠ [] ∨ isTruthy st.character_name then addScene st else st

/-- End of `_parse_text_script` after the loop: close the last scene when the
description buffer is non-empty or the character slot is truthy, record the
final `total_characters` and `total_scenes`, and build the result. -/
def finalize (st : ParserState) : ParsedObject :=
  let st1 := closeAtEnd st
  { scenes := st1.scenes
    stats := { st1.stats with
      total_characters := st1.character_vocabulary.length
      total_scenes := st1.scenes.length }
    character_vocabulary := sortVocab st1.character_vocabulary }

/-- Python `_parse_text_script` as a whole. -/
def parseLines (lines : List (List Char)) : Except Unit ParsedObject :=
  match runLines initState lines with
  | Except.ok st => Except.ok (finalize st)
  | Except.error e => Except.error e

/-- Number of entries of a list carrying a dialogue. -/
def entryDialogueCount (es : List Entry) : Nat :=
  es.countP (fun e => e.dialogue.isSome)

/-- Number of entries carrying a dialogue across a list of scenes. -/
def scenesDialogueCount (ss : List Scene) : Nat :=
  (ss.map (fun s => entryDialogueCount s.entries)).sum

/-- Number of entries carrying a dialogue across a parsed document. -/
def docDialogueCount (d : ParsedObject) : Nat :=
  scenesDialogueCount d.scenes

/-- Whitespace-token count of one entry: its description plus its dialogue
text when present. -/
def entryWords (e : Entry) : Nat :=
  wordCount e.description +
    (match e.dialogue with
     | some dl => wordCount dl.text
     | none => 0)

/-- Whitespace-token count of a list of entries. -/
def entriesWords (es : List Entry) : Nat :=
  (es.map entryWords).sum

/-- Whitespace-token count across a list of scenes. -/
def scenesWords (ss : List Scene) : Nat :=
  (ss.map (fun s => entriesWords s.entries)).sum

/-- Whitespace-token count across a parsed document: every description plus
every present dialogue text. -/
def docWordCount (d : ParsedObject) : Nat :=
  scenesWords d.scenes

/-- Characters speaking in a list of entries, with multiplicity. -/
def entriesChars (es : List Entry) : List (List Char) :=
  es.filterMap (fun e => e.dialogue.map (fun dl => dl.character))

/-- Characters speaking anywhere in a list of scenes. -/
def scenesChars (ss : List Scene) : List (List Char) :=
  (ss.map (fun s => entriesChars s.entries)).flatten

/-! ### Basic facts about `splitOnTab` and `getSceneName` -/

theorem splitOnTab_ne_nil (l : List Char) : splitOnTab l ≠ [] := by
  cases l with
  | nil => simp [splitOnTab]
  | cons c cs =>
    simp only [splitOnTab]
    split <;> simp

theorem splitOnTab_head (l : List Char) :
    (splitOnTab l).head? = some (l.takeWhile (fun c => c ≠ '\t')) := by
  induction l with
  | nil => rfl
  | cons c cs ih =>
    simp only [splitOnTab]
    by_cases h : c = '\t'
    · subst h
      simp [List.takeWhile_cons]
    · cases hr : splitOnTab cs with
      | nil => exact absurd hr (splitOnTab_ne_nil cs)
      | cons p ps =>
        rw [hr] at ih
        simp only [List.head?_cons, Option.some.injEq] at ih
        simp [h, List.takeWhile_cons, hr, ih]

theorem splitOnTab_append_tab (ds rest : List Char) (h : '\t' ∉ ds) :
    splitOnTab (ds ++ '\t' :: rest) = ds :: splitOnTab rest := by
  induction ds with
  | nil => simp [splitOnTab]
  | cons d ds ih =>
    have hd : ¬d = '\t' := fun e => h (e ▸ List.mem_cons_self d ds)
    have h' : '\t' ∉ ds := fun hm => h (List.mem_cons_of_mem d hm)
    simp only [List.cons_append, splitOnTab, List.append_eq]
    rw [ih h']
    simp [hd]

theorem splitOnTab_get1 (ds rest : List Char) (h : '\t' ∉ ds) :
    (splitOnTab (ds ++ '\t' :: rest))[1]? = some (rest.takeWhile (fun c => c ≠ '\t')) := by
  rw [splitOnTab_append_tab ds rest h]
  cases hr : splitOnTab rest with
  | nil => exact absurd hr (splitOnTab_ne_nil rest)
  | cons p ps =>
    have hp := splitOnTab_head rest
    rw [hr] at hp
    simp only [List.head?_cons, Option.some.injEq] at hp
    simp [hp]

theorem sceneHeadingMatch_decomp (l : List Char) (h : sceneHeadingMatch l = true) :
    ∃ ds rest, l = ds ++ '\t' :: rest ∧ '\t' ∉ ds := by
  unfold sceneHeadingMatch at h
  simp only [Bool.and_eq_true, decide_eq_true_eq, Bool.not_eq_true'] at h
  obtain ⟨⟨⟨hds, hhead⟩, _⟩, _⟩ := h
  by_cases hlast : l.getLast? = some '\n'
  · rw [if_pos hlast] at hds hhead
    have hsplit : (l.dropLast).takeWhile Char.isDigit ++ (l.dropLast).dropWhile Char.isDigit
        = l.dropLast := List.takeWhile_append_dropWhile Char.isDigit l.dropLast
    obtain ⟨r, hr⟩ : ∃ r, (l.dropLast).dropWhile Char.isDigit = '\t' :: r := by
      cases hcd : (l.dropLast).dropWhile Char.isDigit with
      | nil => rw [hcd] at hhead; simp at hhead
      | cons a r =>
        rw [hcd] at hhead
        simp at hhead
        exact ⟨r, by rw [hhead]⟩
    have hl : l = l.dropLast ++ ['\n'] := (List.dropLast_append_getLast? '\n' hlast).symm
    have hcore2 : l.dropLast = (l.dropLast).takeWhile Char.isDigit ++ '\t' :: r := by
      conv_lhs => rw [← hsplit]
      rw [hr]
    refine ⟨(l.dropLast).takeWhile Char.isDigit, r ++ ['\n'], ?_, ?_⟩
    · conv_lhs => rw [hl, hcore2]
      simp
    · intro hm
      have := List.mem_takeWhile_imp hm
      simp [Char.isDigit] at this
  · rw [if_neg hlast] at hds hhead
    have hsplit : l.takeWhile Char.isDigit ++ l.dropWhile Char.isDigit = l :=
      List.takeWhile_append_dropWhile Char.isDigit l
    obtain ⟨r, hr⟩ : ∃ r, l.dropWhile Char.isDigit = '\t' :: r := by
      cases hcd : l.dropWhile Char.isDigit with
      | nil => rw [hcd] at hhead; simp at hhead
      | cons a r =>
        rw [hcd] at hhead
        simp at hhead
        exact ⟨r, by rw [hhead]⟩
    refine ⟨l.takeWhile Char.isDigit, r, ?_, ?_⟩
    · conv_lhs => rw [← hsplit]
      rw [hr]
    · intro hm
      have := List.mem_takeWhile_imp hm
      simp [Char.isDigit] at this

theorem getSceneName_ok (l : List Char) : ∃ o, getSceneName l = Except.ok o := by
  unfold getSceneName
  by_cases h : sceneHeadingMatch l
  · obtain ⟨ds, rest, hdec, hds⟩ := sceneHeadingMatch_decomp l h
    rw [if_pos h, hdec, splitOnTab_get1 ds rest hds]
    exact ⟨_, rfl⟩
  · rw [if_neg h]
    exact ⟨none, rfl⟩

/-! ### Equations for `processLine` and its case analysis -/

theorem processLine_empty (st : ParserState) (l : List Char)
    (h : (stripNL l).isEmpty = true) : processLine st l = Except.ok st := by
  unfold processLine
  simp [h]

theorem processLine_scene (st : ParserState) (l : List Char) (o : Option (List Char))
    (h1 : (stripNL l).isEmpty = false) (h2 : getSceneName (stripNL l) = Except.ok o)
    (h3 : isTruthy o = true) :
    processLine st l = Except.ok (sceneStep st (o.getD [])) := by
  unfold processLine
  simp [h1, h2, h3]

theorem processLine_cue (st : ParserState) (l : List Char) (o : Option (List Char))
    (h1 : (stripNL l).isEmpty = false) (h2 : getSceneName (stripNL l) = Except.ok o)
    (h3 : isTruthy o = false) (h4 : countLeadingTabs (stripNL l) = 6) :
    processLine st l = Except.ok (cueStep st (stripNL l)) := by
  unfold processLine
  simp [h1, h2, h3, h4]

theorem processLine_dialogue (st : ParserState) (l : List Char) (o : Option (List Char))
    (h1 : (stripNL l).isEmpty = false) (h2 : getSceneName (stripNL l) = Except.ok o)
    (h3 : isTruthy o = false) (h4 : countLeadingTabs (stripNL l) ≠ 6)
    (h5 : (countLeadingTabs (stripNL l) = 4 ∨ countLeadingTabs (stripNL l) = 5) ∧
      st.character_name.isSome) :
    processLine st l = Except.ok (dialogueStep st (stripNL l)) := by
  unfold processLine
  simp [h1, h2, h3, h4, h5]

theorem processLine_description (st : ParserState) (l : List Char) (o : Option (List Char))
    (h1 : (stripNL l).isEmpty = false) (h2 : getSceneName (stripNL l) = Except.ok o)
    (h3 : isTruthy o = false) (h4 : countLeadingTabs (stripNL l) ≠ 6)
    (h5 : ¬((countLeadingTabs (stripNL l) = 4 ∨ countLeadingTabs (stripNL l) = 5) ∧
      st.character_name.isSome)) :
    processLine st l = Except.ok (descriptionStep st (stripNL l)) := by
  unfold processLine
  simp [h1, h2, h3, h4, h5]

theorem processLine_cases (st : ParserState) (l : List Char) :
    ∃ st', processLine st l = Except.ok st' ∧
      (st' = st ∨ (∃ nm, st' = sceneStep st nm) ∨ (∃ ln, st' = cueStep st ln) ∨
       (∃ ln, st.character_name.isSome = true ∧ st' = dialogueStep st ln) ∨
       (∃ ln, st' = descriptionStep st ln)) := by
  obtain ⟨o, ho⟩ := getSceneName_ok (stripNL l)
  by_cases h1 : (stripNL l).isEmpty
  · exact ⟨st, processLine_empty st l h1, Or.inl rfl⟩
  · rw [Bool.not_eq_true] at h1
    by_cases h3 : isTruthy o
    · exact ⟨_, processLine_scene st l o h1 ho h3, Or.inr (Or.inl ⟨_, rfl⟩)⟩
    · rw [Bool.not_eq_true] at h3
      by_cases h4 : countLeadingTabs (stripNL l) = 6
      · exact ⟨_, processLine_cue st l o h1 ho h3 h4, Or.inr (Or.inr (Or.inl ⟨_, rfl⟩))⟩
      · by_cases h5 : (countLeadingTabs (stripNL l) = 4 ∨ countLeadingTabs (stripNL l) = 5) ∧
          st.character_name.isSome
        · exact ⟨_, processLine_dialogue st l o h1 ho h3 h4 h5,
            Or.inr (Or.inr (Or.inr (Or.inl ⟨_, h5.2, rfl⟩)))⟩
        · exact ⟨_, processLine_description st l o h1 ho h3 h4 h5,
            Or.inr (Or.inr (Or.inr (Or.inr ⟨_, rfl⟩)))⟩

theorem runLines_ok (ls : List (List Char)) :
    ∀ st, ∃ st', runLines st ls = Except.ok st' := by
  induction ls with
  | nil => exact fun st => ⟨st, rfl⟩
  | cons l ls ih =>
    intro st
    obtain ⟨st1, h1, -⟩ := processLine_cases st l
    obtain ⟨st2, h2⟩ := ih st1
    exact ⟨st2, by unfold runLines; rw [h1]; exact h2⟩

/-! ### Projection lemmas for the state transformers -/

@[simp] theorem addEntry_scenes (st : ParserState) : (addEntry st).scenes = st.scenes := rfl

@[simp] theorem addEntry_scene_name (st : ParserState) :
    (addEntry st).scene_name = st.scene_name := rfl

@[simp] theorem addEntry_character_name (st : ParserState) :
    (addEntry st).character_name = none := rfl

@[simp] theorem addEntry_dialogue_text (st : ParserState) :
    (addEntry st).dialogue_text = [] := rfl

@[simp] theorem addEntry_scene_text (st : ParserState) : (addEntry st).scene_text = [] := rfl

theorem addEntry_entries (st : ParserState) :
    (addEntry st).entries = st.entries ++
      [⟨st.scene_text,
        if isTruthy st.character_name then
          some ⟨st.character_name.getD [], st.dialogue_text⟩
        else none⟩] := rfl

theorem addEntry_vocab (st : ParserState) :
    (addEntry st).character_vocabulary =
      if isTruthy st.character_name then
        setAdd st.character_vocabulary (st.character_name.getD [])
      else st.character_vocabulary := rfl

theorem addEntry_total_dialogues (st : ParserState) :
    (addEntry st).stats.total_dialogues =
      st.stats.total_dialogues + (if isTruthy st.character_name then 1 else 0) := by
  by_cases h : isTruthy st.character_name <;> simp [addEntry, h]

theorem addEntry_total_words (st : ParserState) :
    (addEntry st).stats.total_words =
      st.stats.total_words + wordCount st.scene_text + wordCount st.dialogue_text := by
  by_cases h : isTruthy st.character_name <;> simp [addEntry, h]

@[simp] theorem closePending_scenes (st : ParserState) :
    (closePending st).scenes = st.scenes := by
  unfold closePending
  split <;> simp

@[simp] theorem closePending_scene_name (st : ParserState) :
    (closePending st).scene_name = st.scene_name := by
  unfold closePending
  split <;> simp

theorem addScene_scenes (st : ParserState) :
    (addScene st).scenes = st.scenes ++ [⟨st.scene_name, (closePending st).entries⟩] := by
  show (closePending st).scenes ++ [⟨(closePending st).scene_name, (closePending st).entries⟩]
      = st.scenes ++ [⟨st.scene_name, (closePending st).entries⟩]
  rw [closePending_scenes, closePending_scene_name]

@[simp] theorem addScene_stats (st : ParserState) :
    (addScene st).stats = (closePending st).stats := rfl

@[simp] theorem addScene_vocab (st : ParserState) :
    (addScene st).character_vocabulary = (closePending st).character_vocabulary := rfl

@[simp] theorem addScene_entries (st : ParserState) :
    (addScene st).entries = (closePending st).entries := rfl

@[simp] theorem sceneStep_scenes (st : ParserState) (nm : List Char) :
    (sceneStep st nm).scenes = (addScene st).scenes := rfl

@[simp] theorem sceneStep_scene_name (st : ParserState) (nm : List Char) :
    (sceneStep st nm).scene_name = nm := rfl

@[simp] theorem sceneStep_entries (st : ParserState) (nm : List Char) :
    (sceneStep st nm).entries = [] := rfl

@[simp] theorem sceneStep_character_name (st : ParserState) (nm : List Char) :
    (sceneStep st nm).character_name = none := rfl

@[simp] theorem sceneStep_dialogue_text (st : ParserState) (nm : List Char) :
    (sceneStep st nm).dialogue_text = [] := rfl

@[simp] theorem sceneStep_scene_text (st : ParserState) (nm : List Char) :
    (sceneStep st nm).scene_text = [] := rfl

@[simp] theorem sceneStep_stats (st : ParserState) (nm : List Char) :
    (sceneStep st nm).stats = (addScene st).stats := rfl

@[simp] theorem sceneStep_vocab (st : ParserState) (nm : List Char) :
    (sceneStep st nm).character_vocabulary = (addScene st).character_vocabulary := rfl

theorem cueStep_scenes (st : ParserState) (ln : List Char) :
    (cueStep st ln).scenes = st.scenes := by
  unfold cueStep
  split <;> simp

theorem cueStep_scene_name (st : ParserState) (ln : List Char) :
    (cueStep st ln).scene_name = st.scene_name := by
  unfold cueStep
  split <;> simp

@[simp] theorem cueStep_character_name (st : ParserState) (ln : List Char) :
    (cueStep st ln).character_name = some (stripWs ln) := by
  unfold cueStep
  split <;> rfl

theorem cueStep_dialogue_text (st : ParserState) (ln : List Char) :
    (cueStep st ln).dialogue_text =
      if isTruthy st.character_name then [] else st.dialogue_text := by
  unfold cueStep
  split <;> simp_all

@[simp] theorem dialogueStep_scenes (st : ParserState) (ln : List Char) :
    (dialogueStep st ln).scenes = st.scenes := rfl

@[simp] theorem dialogueStep_scene_name (st : ParserState) (ln : List Char) :
    (dialogueStep st ln).scene_name = st.scene_name := rfl

@[simp] theorem dialogueStep_character_name (st : ParserState) (ln : List Char) :
    (dialogueStep st ln).character_name = st.character_name := rfl

@[simp] theorem dialogueStep_entries (st : ParserState) (ln : List Char) :
    (dialogueStep st ln).entries = st.entries := rfl

@[simp] theorem dialogueStep_stats (st : ParserState) (ln : List Char) :
    (dialogueStep st ln).stats = st.stats := rfl

@[simp] theorem dialogueStep_vocab (st : ParserState) (ln : List Char) :
    (dialogueStep st ln).character_vocabulary = st.character_vocabulary := rfl

theorem descriptionStep_scenes (st : ParserState) (ln : List Char) :
    (descriptionStep st ln).scenes = st.scenes := by
  unfold descriptionStep
  split <;> simp

theorem descriptionStep_scene_name (st : ParserState) (ln : List Char) :
    (descriptionStep st ln).scene_name = st.scene_name := by
  unfold descriptionStep
  split <;> simp

theorem descriptionStep_character_name (st : ParserState) (ln : List Char) :
    (descriptionStep st ln).character_name =
      if isTruthy st.character_name then none else st.character_name := by
  unfold descriptionStep
  split <;> simp_all

theorem descriptionStep_dialogue_text (st : ParserState) (ln : List Char) :
    (descriptionStep st ln).dialogue_text =
      if isTruthy st.character_name then [] else st.dialogue_text := by
  unfold descriptionStep
  split <;> simp_all

theorem runLines_inv (P : ParserState → Prop)
    (hstep : ∀ st l st', P st → processLine st l = Except.ok st' → P st') :
    ∀ ls st st', P st → runLines st ls = Except.ok st' → P st' := by
  intro ls
  induction ls with
  | nil =>
    intro st st' hP h
    unfold runLines at h
    cases h
    exact hP
  | cons l ls ih =>
    intro st st' hP h
    unfold runLines at h
    cases hpl : processLine st l with
    | ok st1 =>
      rw [hpl] at h
      exact ih st1 st' (hstep st l st1 hP hpl) h
    | error e =>
      rw [hpl] at h
      cases h

/-- Every append writes a trailing space, so a buffer built by
`concatenateText` always ends with a space: the trailing-hyphen check of
`_concatenate_text` can never fire on the buffers the parser maintains. -/
theorem concatenateText_ends_with_space (buffer newLine : List Char) :
    (concatenateText buffer newLine).getLast? = some ' ' := by
  have h : concatenateText buffer newLine =
      ((if buffer.getLast? = some '-' then buffer.dropLast else buffer) ++
        toLowerStr (stripWs newLine)) ++ [' '] := by
    rw [concatenateText.eq_1, List.append_assoc]
  rw [h]
  exact List.getLast?_concat _

/-- Claim C1: the spec asks that appending the line `"exam-"` and then the
line `"ple"` to an empty buffer yield `"example "`.  The code instead yields
`"exam- ple "`: `_concatenate_text` writes a trailing space after every
append, so the buffer ends with a space, never with the hyphen its own
trailing-hyphen removal looks for — the hyphen-stitching branch is dead code
and the word stays split. -/
theorem hyphen_stitching_buffer_eval :
    concatenateText (concatenateText [] ("exam-".toList)) ("ple".toList)
      = ("exam- ple ".toList) := by decide

/-- Claim C8: for every finite sequence of input lines the parser terminates
with a `ParsedDocument` and never reaches an error: in particular the
`IndexError` branch of the tab-split indexing in `_get_scene_name` (the
`Except.error` of the embedding) is unreachable, because a line matched by
the scene-heading regex always contains a tab and therefore splits into at
least two parts. -/
theorem parse_total_ok (lines : List (List Char)) :
    ∃ d, parseLines lines = Except.ok d := by
  obtain ⟨st, hst⟩ := runLines_ok lines initState
  refine ⟨finalize st, ?_⟩
  unfold parseLines
  rw [hst]

/-! ### Claim C2: the first scene -/

/-- Invariant backing claim C2: while no scene has been closed yet the running
scene name is still the synthetic title, and once the scene list is non-empty
its first element is the synthetic title scene. -/
def FirstSceneInv (st : ParserState) : Prop :=
  (st.scenes = [] → st.scene_name = "SCRIPT TITLE".toList) ∧
  (∀ s, st.scenes.head? = some s → s.name = "SCRIPT TITLE".toList)

theorem head_name_of_append (st : ParserState) (hP : FirstSceneInv st) (E : List Entry)
    (s : Scene) (hs : (st.scenes ++ [(⟨st.scene_name, E⟩ : Scene)]).head? = some s) :
    s.name = "SCRIPT TITLE".toList := by
  cases hsc : st.scenes with
  | nil =>
    rw [hsc] at hs
    simp at hs
    rw [← hs]
    exact hP.1 hsc
  | cons a t =>
    rw [hsc] at hs
    simp at hs
    subst hs
    exact hP.2 _ (by rw [hsc]; rfl)

theorem firstSceneInv_step (st : ParserState) (l : List Char) (st' : ParserState)
    (hP : FirstSceneInv st) (h : processLine st l = Except.ok st') : FirstSceneInv st' := by
  obtain ⟨st'', h2, hc⟩ := processLine_cases st l
  rw [h] at h2
  injection h2 with h2
  subst h2
  rcases hc with rfl | ⟨nm, rfl⟩ | ⟨ln, rfl⟩ | ⟨ln, -, rfl⟩ | ⟨ln, rfl⟩
  · exact hP
  · constructor
    · intro h0
      rw [sceneStep_scenes, addScene_scenes] at h0
      simp at h0
    · intro s hs
      rw [sceneStep_scenes, addScene_scenes] at hs
      exact head_name_of_append st hP (closePending st).entries s hs
  · constructor
    · intro h0
      rw [cueStep_scenes] at h0
      rw [cueStep_scene_name]
      exact hP.1 h0
    · intro s hs
      rw [cueStep_scenes] at hs
      exact hP.2 s hs
  · constructor
    · intro h0
      rw [dialogueStep_scenes] at h0
      rw [dialogueStep_scene_name]
      exact hP.1 h0
    · intro s hs
      rw [dialogueStep_scenes] at hs
      exact hP.2 s hs
  · constructor
    · intro h0
      rw [descriptionStep_scenes] at h0
      rw [descriptionStep_scene_name]
      exact hP.1 h0
    · intro s hs
      rw [descriptionStep_scenes] at hs
      exact hP.2 s hs

theorem firstSceneInv_init : FirstSceneInv initState := by
  constructor
  · intro _
    rfl
  · intro s hs
    simp [initState] at hs

/-- Claim C2 counterexample: on the empty input no end-of-input scene close is
performed (the description buffer is empty and no character is active), and
the returned document has an empty scenes list — no synthetic "SCRIPT TITLE"
scene is present, contradicting the claim for this input. -/
theorem parse_empty_input_no_scenes :
    parseLines [] = Except.ok ⟨[], ⟨0, 0, 0, 0, 0⟩, []⟩ ∧
      (⟨[], ⟨0, 0, 0, 0, 0⟩, []⟩ : ParsedObject).scenes = [] :=
  ⟨rfl, rfl⟩

/-- Claim C2 as amended: the scenes list of a parsed document may be empty
(the end-of-input scene close runs only when the description buffer is
non-empty or the character slot is truthy); whenever the scenes list is
non-empty, its first scene is the synthetic title scene "SCRIPT TITLE". -/
theorem first_scene_title (L : List (List Char)) (d : ParsedObject)
    (h : parseLines L = Except.ok d) (s : Scene) (hs : d.scenes.head? = some s) :
    s.name = "SCRIPT TITLE".toList := by
  unfold parseLines at h
  cases hr : runLines initState L with
  | error e =>
    rw [hr] at h
    cases h
  | ok st =>
    rw [hr] at h
    injection h with h
    subst h
    have hInv : FirstSceneInv st :=
      runLines_inv FirstSceneInv firstSceneInv_step L initState st firstSceneInv_init hr
    unfold finalize closeAtEnd at hs
    by_cases hp : st.scene_text ≠ [] ∨ isTruthy st.character_name = true
    · rw [if_pos hp] at hs
      simp only [addScene_scenes] at hs
      exact head_name_of_append st hInv (closePending st).entries s hs
    · rw [if_neg hp] at hs
      exact hInv.2 s hs

/-! ### Claim C3: Scenario A -/

/-- Claim C3 counterexample: on exactly one title line followed by three bare
scene-heading lines and nothing else, the parse returns 3 scenes, not 4: at
end of input the description buffer is empty and no character is active, so
the scene opened by the third heading is never closed and is dropped. -/
theorem scenarioA_not_four_scenes :
    parseLines [("\tTitle".toList), ("1\tSCENE NAME 1".toList), ("2\tSCENE NAME 2".toList),
        ("3\tSCENE NAME 3".toList)] =
      Except.ok ⟨[⟨"SCRIPT TITLE".toList, [⟨"title ".toList, none⟩]⟩,
        ⟨"SCENE NAME 1".toList, []⟩, ⟨"SCENE NAME 2".toList, []⟩], ⟨0, 3, 0, 1, 0⟩, []⟩ :=
  rfl

/-- Claim C3 as amended: the Scenario A input (a title line then three bare
scene headings, nothing else) yields exactly 3 scenes — the synthetic title
scene with 1 entry and the first two named scenes with 0 entries; the scene
of the last heading is dropped at end of input — with
`total_characters = 0` and `total_scenes = 3`. -/
theorem scenarioA_three_scenes :
    (parseLines [("\tTitle".toList), ("1\tSCENE NAME 1".toList), ("2\tSCENE NAME 2".toList),
        ("3\tSCENE NAME 3".toList)]).map
      (fun d => (d.scenes.length, d.scenes.map (fun s => s.entries.length),
        d.stats.total_characters, d.stats.total_scenes)) =
      Except.ok (3, [1, 0, 0], 0, 3) :=
  rfl

/-! ### Claim C4: scene-heading classification and scene name -/

theorem digits_splits (ds rest : List Char) (h2 : ∀ c ∈ ds, Char.isDigit c) :
    (ds ++ '\t' :: rest).takeWhile Char.isDigit = ds ∧
    (ds ++ '\t' :: rest).dropWhile Char.isDigit = '\t' :: rest := by
  induction ds with
  | nil => simp [List.takeWhile_cons, List.dropWhile_cons]
  | cons d ds ih =>
    have hd : d.isDigit := h2 d (List.mem_cons_self d ds)
    have h2' : ∀ c ∈ ds, Char.isDigit c := fun c hc => h2 c (List.mem_cons_of_mem d hc)
    obtain ⟨ht, hdr⟩ := ih h2'
    simp [List.takeWhile_cons, List.dropWhile_cons, hd, ht, hdr]

/-- Claim C4 counterexample: the line `"12\tA\tB"` is a run of ASCII digits,
a tab and the non-empty remainder `"A\tB"`, yet the extracted scene name is
`"A"` — `line.split("\t")[1]`, the segment between the first and the second
tab — and not the entire remainder `"A\tB"` after the first tab. -/
theorem scene_name_not_full_remainder :
    getSceneName ("12\tA\tB".toList) = Except.ok (some ("A".toList)) ∧
      ("A".toList : List Char) ≠ ("A\tB".toList) :=
  ⟨rfl, by decide⟩

/-- Claim C4 as amended: a line made of a non-empty run of ASCII digits, a
tab, and a non-empty newline-free remainder always matches the scene-heading
pattern, and the extracted scene name is the prefix of the remainder up to
(excluding) the next tab, i.e. `line.split("\t")[1]` — not the entire
remainder.  (The parse then starts a new scene iff that segment is non-empty,
since an empty name is falsy.) -/
theorem scene_name_between_tabs (ds rest : List Char)
    (h1 : ds ≠ []) (h2 : ∀ c ∈ ds, Char.isDigit c) (h3 : rest ≠ [])
    (h4 : ∀ c ∈ rest, c ≠ '\n') :
    getSceneName (ds ++ '\t' :: rest) =
      Except.ok (some (rest.takeWhile (fun c => c ≠ '\t'))) := by
  have hnot : '\t' ∉ ds := by
    intro hm
    have := h2 _ hm
    simp [Char.isDigit] at this
  have hlast : ¬(ds ++ '\t' :: rest).getLast? = some '\n' := by
    intro hl
    have hmem := List.mem_of_getLast?_eq_some hl
    rcases List.mem_append.1 hmem with hm | hm
    · have := h2 _ hm
      simp [Char.isDigit] at this
    · rcases List.mem_cons.1 hm with he | hm
      · exact absurd he (by decide)
      · exact h4 _ hm rfl
  obtain ⟨ht, hd⟩ := digits_splits ds rest h2
  have hmatch : sceneHeadingMatch (ds ++ '\t' :: rest) = true := by
    unfold sceneHeadingMatch
    rw [if_neg hlast]
    simp only [ht, hd]
    have hlen : 2 ≤ ('\t' :: rest).length := by
      cases rest with
      | nil => exact absurd rfl h3
      | cons a t => simp
    have hall : rest.all (fun c => decide (c ≠ '\n')) = true := by
      rw [List.all_eq_true]
      intro c hc
      simpa using h4 c hc
    simp [h1, hlen, hall]
    exact ⟨List.length_pos.2 h3, fun x hx => h4 x hx⟩
  unfold getSceneName
  rw [if_pos hmatch, splitOnTab_get1 ds rest hnot]

/-- Claim C4 witness: the amended statement applied to the digits `"12"` and
the remainder `"A\tB"`, where the extracted name is `"A"`. -/
theorem scene_name_between_tabs_witness :
    ("12".toList ≠ ([] : List Char)) ∧ (∀ c ∈ ("12".toList), Char.isDigit c) ∧
    (("A\tB".toList : List Char) ≠ []) ∧ (∀ c ∈ ("A\tB".toList), c ≠ '\n') ∧
    getSceneName ("12".toList ++ '\t' :: ("A\tB".toList)) =
      Except.ok (some (("A\tB".toList).takeWhile (fun c => c ≠ '\t'))) :=
  ⟨by decide, by decide, by decide, by decide,
    scene_name_between_tabs ("12".toList) ("A\tB".toList)
      (by decide) (by decide) (by decide) (by decide)⟩

/-! ### Claim C5: statistics consistency -/

@[simp] theorem cueStep_stats (st : ParserState) (ln : List Char) :
    (cueStep st ln).stats = (if isTruthy st.character_name then addEntry st else st).stats := rfl

@[simp] theorem cueStep_entries (st : ParserState) (ln : List Char) :
    (cueStep st ln).entries =
      (if isTruthy st.character_name then addEntry st else st).entries := rfl

@[simp] theorem cueStep_vocab (st : ParserState) (ln : List Char) :
    (cueStep st ln).character_vocabulary =
      (if isTruthy st.character_name then addEntry st else st).character_vocabulary := rfl

@[simp] theorem descriptionStep_stats (st : ParserState) (ln : List Char) :
    (descriptionStep st ln).stats =
      (if isTruthy st.character_name then addEntry st else st).stats := rfl

@[simp] theorem descriptionStep_entries (st : ParserState) (ln : List Char) :
    (descriptionStep st ln).entries =
      (if isTruthy st.character_name then addEntry st else st).entries := rfl

@[simp] theorem descriptionStep_vocab (st : ParserState) (ln : List Char) :
    (descriptionStep st ln).character_vocabulary =
      (if isTruthy st.character_name then addEntry st else st).character_vocabulary := rfl

theorem entryDialogueCount_append (es : List Entry) (e : Entry) :
    entryDialogueCount (es ++ [e]) =
      entryDialogueCount es + (if e.dialogue.isSome then 1 else 0) := by
  simp [entryDialogueCount, List.countP_append, List.countP_cons]

theorem scenesDialogueCount_append (ss : List Scene) (nm : List Char) (es : List Entry) :
    scenesDialogueCount (ss ++ [(⟨nm, es⟩ : Scene)]) =
      scenesDialogueCount ss + entryDialogueCount es := by
  simp [scenesDialogueCount]

theorem sortVocab_length (v : List (List Char)) : (sortVocab v).length = v.length :=
  (List.perm_insertionSort _ v).length_eq

/-- Running invariant for `total_dialogues`: the counter equals the number of
dialogue-carrying entries in the closed scenes plus those pending in the
current entry list. -/
def DialInv (st : ParserState) : Prop :=
  st.stats.total_dialogues =
    scenesDialogueCount st.scenes + entryDialogueCount st.entries

theorem dialInv_addEntry (st : ParserState) (h : DialInv st) : DialInv (addEntry st) := by
  unfold DialInv at h ⊢
  rw [addEntry_total_dialogues, addEntry_scenes, addEntry_entries, entryDialogueCount_append]
  by_cases htr : isTruthy st.character_name <;> simp [htr] <;> omega

theorem dialInv_closePending (st : ParserState) (h : DialInv st) :
    DialInv (closePending st) := by
  unfold closePending
  split
  · exact dialInv_addEntry st h
  · exact h

theorem dialInv_addScene (st : ParserState) (h : DialInv st) :
    (addScene st).stats.total_dialogues = scenesDialogueCount (addScene st).scenes := by
  have h1 := dialInv_closePending st h
  unfold DialInv at h1
  rw [closePending_scenes] at h1
  rw [addScene_stats, addScene_scenes, scenesDialogueCount_append]
  exact h1

theorem dialInv_step (st : ParserState) (l : List Char) (st' : ParserState)
    (h : DialInv st) (hp : processLine st l = Except.ok st') : DialInv st' := by
  obtain ⟨st'', h2, hc⟩ := processLine_cases st l
  rw [hp] at h2
  injection h2 with h2
  subst h2
  rcases hc with rfl | ⟨nm, rfl⟩ | ⟨ln, rfl⟩ | ⟨ln, -, rfl⟩ | ⟨ln, rfl⟩
  · exact h
  · unfold DialInv
    rw [sceneStep_stats, sceneStep_scenes, sceneStep_entries]
    have h0 : entryDialogueCount [] = 0 := rfl
    rw [h0, Nat.add_zero, dialInv_addScene st h]
  · unfold DialInv
    rw [cueStep_stats, cueStep_scenes, cueStep_entries]
    by_cases htr : isTruthy st.character_name
    · rw [if_pos htr]
      have h3 := dialInv_addEntry st h
      unfold DialInv at h3
      rw [addEntry_scenes] at h3
      exact h3
    · rw [if_neg htr]
      exact h
  · exact h
  · unfold DialInv
    rw [descriptionStep_stats, descriptionStep_scenes, descriptionStep_entries]
    by_cases htr : isTruthy st.character_name
    · rw [if_pos htr]
      have h3 := dialInv_addEntry st h
      unfold DialInv at h3
      rw [addEntry_scenes] at h3
      exact h3
    · rw [if_neg htr]
      exact h

theorem dialInv_init : DialInv initState := rfl

/-- Claim C5 counterexample: for the input [6 tabs + "ALICE", 6 tabs] the
second cue flushes an entry with a dialogue (total_dialogues becomes 1) and
installs the empty stripped cue as character name; at end of input the empty
character name is falsy and the description buffer empty, so no scene is
closed: the document has no scenes at all while stats.total_dialogues = 1 —
the total_dialogues equation of the claim fails. -/
theorem stats_total_dialogues_cex :
    (parseLines [(List.replicate 6 '\t' ++ "ALICE".toList), (List.replicate 6 '\t')]).map
      (fun d => (d.stats.total_dialogues, docDialogueCount d)) = Except.ok (1, 0) :=
  rfl

/-- Claim C5 as amended: `total_characters = |character_vocabulary|` and
`total_scenes = |scenes|` hold for every input; `total_dialogues` is only an
upper bound on the number of dialogue-carrying entries of the returned
document — the two are equal unless entries flushed in the unfinished scene
are dropped at end of input (no scene close because the description buffer is
empty and the character slot is not truthy). -/
theorem stats_consistency (L : List (List Char)) (d : ParsedObject)
    (h : parseLines L = Except.ok d) :
    d.stats.total_characters = d.character_vocabulary.length ∧
    d.stats.total_scenes = d.scenes.length ∧
    docDialogueCount d ≤ d.stats.total_dialogues := by
  unfold parseLines at h
  cases hr : runLines initState L with
  | error e =>
    rw [hr] at h
    cases h
  | ok st =>
    rw [hr] at h
    injection h with h
    subst h
    have hInv : DialInv st := runLines_inv DialInv dialInv_step L initState st dialInv_init hr
    refine ⟨?_, rfl, ?_⟩
    · show (closeAtEnd st).character_vocabulary.length
        = (sortVocab (closeAtEnd st).character_vocabulary).length
      exact (sortVocab_length _).symm
    · show scenesDialogueCount (closeAtEnd st).scenes ≤ (closeAtEnd st).stats.total_dialogues
      unfold closeAtEnd
      by_cases hp : st.scene_text ≠ [] ∨ isTruthy st.character_name = true
      · rw [if_pos hp, dialInv_addScene st hInv]
      · rw [if_neg hp]
        unfold DialInv at hInv
        rw [hInv]
        exact Nat.le_add_right _ _

/-- Claim C5 witness: the amended statement applied to a two-line dialogue
input, whose document has one scene, one dialogue entry and vocabulary
["ALICE"]. -/
theorem stats_consistency_witness :
    parseLines [(List.replicate 6 '\t' ++ "ALICE".toList),
        (List.replicate 4 '\t' ++ "hello".toList)] =
      Except.ok ⟨[⟨"SCRIPT TITLE".toList, [⟨[], some ⟨"ALICE".toList, "hello ".toList⟩⟩]⟩],
        ⟨1, 1, 1, 1, 1⟩, [("ALICE".toList)]⟩ ∧
    ((⟨[⟨"SCRIPT TITLE".toList, [⟨[], some ⟨"ALICE".toList, "hello ".toList⟩⟩]⟩],
        ⟨1, 1, 1, 1, 1⟩, [("ALICE".toList)]⟩ : ParsedObject).stats.total_characters
      = (⟨[⟨"SCRIPT TITLE".toList, [⟨[], some ⟨"ALICE".toList, "hello ".toList⟩⟩]⟩],
        ⟨1, 1, 1, 1, 1⟩, [("ALICE".toList)]⟩ : ParsedObject).character_vocabulary.length ∧
     (⟨[⟨"SCRIPT TITLE".toList, [⟨[], some ⟨"ALICE".toList, "hello ".toList⟩⟩]⟩],
        ⟨1, 1, 1, 1, 1⟩, [("ALICE".toList)]⟩ : ParsedObject).stats.total_scenes
      = (⟨[⟨"SCRIPT TITLE".toList, [⟨[], some ⟨"ALICE".toList, "hello ".toList⟩⟩]⟩],
        ⟨1, 1, 1, 1, 1⟩, [("ALICE".toList)]⟩ : ParsedObject).scenes.length ∧
     docDialogueCount (⟨[⟨"SCRIPT TITLE".toList,
        [⟨[], some ⟨"ALICE".toList, "hello ".toList⟩⟩]⟩],
        ⟨1, 1, 1, 1, 1⟩, [("ALICE".toList)]⟩ : ParsedObject)
      ≤ (⟨[⟨"SCRIPT TITLE".toList, [⟨[], some ⟨"ALICE".toList, "hello ".toList⟩⟩]⟩],
        ⟨1, 1, 1, 1, 1⟩, [("ALICE".toList)]⟩ : ParsedObject).stats.total_dialogues) :=
  ⟨rfl,
    stats_consistency
      [(List.replicate 6 '\t' ++ "ALICE".toList), (List.replicate 4 '\t' ++ "hello".toList)]
      ⟨[⟨"SCRIPT TITLE".toList, [⟨[], some ⟨"ALICE".toList, "hello ".toList⟩⟩]⟩],
        ⟨1, 1, 1, 1, 1⟩, [("ALICE".toList)]⟩ rfl⟩

/-! ### Claim C6: the character vocabulary -/

theorem mem_setAdd_of_mem {v : List (List Char)} {s c : List Char} (h : c ∈ v) :
    c ∈ setAdd v s := by
  unfold setAdd
  split
  · exact h
  · exact List.mem_append_left _ h

theorem mem_setAdd_self (v : List (List Char)) (s : List Char) : s ∈ setAdd v s := by
  unfold setAdd
  split
  · assumption
  · simp

theorem entriesChars_append (es : List Entry) (e : Entry) :
    entriesChars (es ++ [e]) =
      entriesChars es ++ (e.dialogue.map (fun dl => dl.character)).toList := by
  cases hd : e.dialogue with
  | none => simp [entriesChars, List.filterMap_append, hd]
  | some dl => simp [entriesChars, List.filterMap_append, hd]

theorem scenesChars_append (ss : List Scene) (nm : List Char) (es : List Entry) :
    scenesChars (ss ++ [(⟨nm, es⟩ : Scene)]) = scenesChars ss ++ entriesChars es := by
  simp [scenesChars]

theorem mem_scenesChars {ss : List Scene} {s : Scene} {e : Entry} {dl : Dialogue}
    (hs : s ∈ ss) (he : e ∈ s.entries) (hd : e.dialogue = some dl) :
    dl.character ∈ scenesChars ss := by
  unfold scenesChars
  rw [List.mem_flatten]
  refine ⟨entriesChars s.entries, List.mem_map_of_mem _ hs, ?_⟩
  unfold entriesChars
  rw [List.mem_filterMap]
  exact ⟨e, he, by rw [hd]; rfl⟩

/-- Running invariant for the vocabulary: the character of every dialogue of a
closed scene or of a pending entry is in the vocabulary set. -/
def VocabInv (st : ParserState) : Prop :=
  ∀ c, (c ∈ scenesChars st.scenes ∨ c ∈ entriesChars st.entries) →
    c ∈ st.character_vocabulary

theorem vocabInv_addEntry (st : ParserState) (h : VocabInv st) : VocabInv (addEntry st) := by
  unfold VocabInv
  intro c hc
  rw [addEntry_scenes, addEntry_entries, entriesChars_append] at hc
  rw [addEntry_vocab]
  by_cases htr : isTruthy st.character_name
  · rw [if_pos htr]
    simp only [htr, if_true] at hc
    rcases hc with hc | hc
    · exact mem_setAdd_of_mem (h c (Or.inl hc))
    · rcases List.mem_append.1 hc with hc | hc
      · exact mem_setAdd_of_mem (h c (Or.inr hc))
      · simp at hc
        rw [hc]
        exact mem_setAdd_self _ _
  · rw [if_neg htr]
    simp only [htr, if_false] at hc
    rcases hc with hc | hc
    · exact h c (Or.inl hc)
    · rcases List.mem_append.1 hc with hc | hc
      · exact h c (Or.inr hc)
      · simp at hc

theorem vocabInv_closePending (st : ParserState) (h : VocabInv st) :
    VocabInv (closePending st) := by
  unfold closePending
  split
  · exact vocabInv_addEntry st h
  · exact h

theorem vocabInv_addScene (st : ParserState) (h : VocabInv st) :
    ∀ c, c ∈ scenesChars (addScene st).scenes → c ∈ (addScene st).character_vocabulary := by
  intro c hc
  have h1 := vocabInv_closePending st h
  rw [addScene_scenes, scenesChars_append] at hc
  rw [addScene_vocab]
  rcases List.mem_append.1 hc with hc | hc
  · exact h1 c (Or.inl (by rw [closePending_scenes]; exact hc))
  · exact h1 c (Or.inr hc)

theorem vocabInv_step (st : ParserState) (l : List Char) (st' : ParserState)
    (h : VocabInv st) (hp : processLine st l = Except.ok st') : VocabInv st' := by
  obtain ⟨st'', h2, hc⟩ := processLine_cases st l
  rw [hp] at h2
  injection h2 with h2
  subst h2
  rcases hc with rfl | ⟨nm, rfl⟩ | ⟨ln, rfl⟩ | ⟨ln, -, rfl⟩ | ⟨ln, rfl⟩
  · exact h
  · unfold VocabInv
    intro c hc
    rw [sceneStep_scenes, sceneStep_entries] at hc
    rw [sceneStep_vocab]
    rcases hc with hc | hc
    · exact vocabInv_addScene st h c hc
    · simp [entriesChars] at hc
  · unfold VocabInv
    intro c hc
    rw [cueStep_scenes, cueStep_entries] at hc
    rw [cueStep_vocab]
    by_cases htr : isTruthy st.character_name
    · rw [if_pos htr] at hc ⊢
      have h3 := vocabInv_addEntry st h
      unfold VocabInv at h3
      exact h3 c (by rw [addEntry_scenes]; exact hc)
    · rw [if_neg htr] at hc ⊢
      exact h c hc
  · exact h
  · unfold VocabInv
    intro c hc
    rw [descriptionStep_scenes, descriptionStep_entries] at hc
    rw [descriptionStep_vocab]
    by_cases htr : isTruthy st.character_name
    · rw [if_pos htr] at hc ⊢
      have h3 := vocabInv_addEntry st h
      unfold VocabInv at h3
      exact h3 c (by rw [addEntry_scenes]; exact hc)
    · rw [if_neg htr] at hc ⊢
      exact h c hc

theorem vocabInv_init : VocabInv initState := by
  intro c hc
  rcases hc with hc | hc <;> simp [scenesChars, entriesChars, initState] at hc

/-- Claim C6 counterexample: for the input [6 tabs + "ALICE", 6 tabs] the
returned vocabulary is ["ALICE"], yet the document has no scenes at all, so
"ALICE" is not the character of any Dialogue reachable through the document —
the vocabulary is not exactly the set of characters of the document. -/
theorem vocab_not_exact_cex :
    (parseLines [(List.replicate 6 '\t' ++ "ALICE".toList), (List.replicate 6 '\t')]).map
      (fun d => (d.character_vocabulary, d.scenes)) =
      Except.ok ([("ALICE".toList)], ([] : List Scene)) :=
  rfl

/-- Claim C6 as amended: one inclusion always holds — the character of every
dialogue reachable through the returned document is in `character_vocabulary`
— but the vocabulary can strictly exceed the set of document characters, when
entries flushed in the unfinished scene are dropped at end of input. -/
theorem dialogue_char_in_vocab (L : List (List Char)) (d : ParsedObject)
    (h : parseLines L = Except.ok d) :
    ∀ s ∈ d.scenes, ∀ e ∈ s.entries, ∀ dl : Dialogue, e.dialogue = some dl →
      dl.character ∈ d.character_vocabulary := by
  intro s hs e he dl hd
  unfold parseLines at h
  cases hr : runLines initState L with
  | error e =>
    rw [hr] at h
    cases h
  | ok st =>
    rw [hr] at h
    injection h with h
    subst h
    have hInv : VocabInv st :=
      runLines_inv VocabInv vocabInv_step L initState st vocabInv_init hr
    have hs' : s ∈ (closeAtEnd st).scenes := hs
    have hchar : dl.character ∈ (closeAtEnd st).character_vocabulary := by
      unfold closeAtEnd at hs' ⊢
      by_cases hp : st.scene_text ≠ [] ∨ isTruthy st.character_name = true
      · rw [if_pos hp] at hs' ⊢
        exact vocabInv_addScene st hInv dl.character (mem_scenesChars hs' he hd)
      · rw [if_neg hp] at hs' ⊢
        exact hInv dl.character (Or.inl (mem_scenesChars hs' he hd))
    show dl.character ∈ sortVocab (closeAtEnd st).character_vocabulary
    exact ((List.perm_insertionSort _ _).mem_iff).2 hchar

/-- Claim C6 witness: the inclusion applied to a two-line dialogue input whose
single dialogue is spoken by "ALICE". -/
theorem dialogue_char_in_vocab_witness :
    parseLines [(List.replicate 6 '\t' ++ "ALICE".toList),
        (List.replicate 4 '\t' ++ "hello".toList)] =
      Except.ok ⟨[⟨"SCRIPT TITLE".toList, [⟨[], some ⟨"ALICE".toList, "hello ".toList⟩⟩]⟩],
        ⟨1, 1, 1, 1, 1⟩, [("ALICE".toList)]⟩ ∧
    ("ALICE".toList ∈
      (⟨[⟨"SCRIPT TITLE".toList, [⟨[], some ⟨"ALICE".toList, "hello ".toList⟩⟩]⟩],
        ⟨1, 1, 1, 1, 1⟩, [("ALICE".toList)]⟩ : ParsedObject).character_vocabulary) :=
  ⟨rfl,
    dialogue_char_in_vocab
      [(List.replicate 6 '\t' ++ "ALICE".toList), (List.replicate 4 '\t' ++ "hello".toList)]
      ⟨[⟨"SCRIPT TITLE".toList, [⟨[], some ⟨"ALICE".toList, "hello ".toList⟩⟩]⟩],
        ⟨1, 1, 1, 1, 1⟩, [("ALICE".toList)]⟩ rfl
      ⟨"SCRIPT TITLE".toList, [⟨[], some ⟨"ALICE".toList, "hello ".toList⟩⟩]⟩
      (by decide)
      ⟨[], some ⟨"ALICE".toList, "hello ".toList⟩⟩ (by decide)
      ⟨"ALICE".toList, "hello ".toList⟩ rfl⟩

/-! ### Claim C7: total_words -/

theorem entriesWords_append (es : List Entry) (e : Entry) :
    entriesWords (es ++ [e]) = entriesWords es + entryWords e := by
  simp [entriesWords]

theorem scenesWords_append (ss : List Scene) (nm : List Char) (es : List Entry) :
    scenesWords (ss ++ [(⟨nm, es⟩ : Scene)]) = scenesWords ss + entriesWords es := by
  simp [scenesWords]

/-- Running invariant for `total_words`: the counter dominates the token count
of the closed scenes plus the pending entries (strictly dominating whenever a
flush dropped the dialogue buffer of a non-truthy character). -/
def WordInv (st : ParserState) : Prop :=
  scenesWords st.scenes + entriesWords st.entries ≤ st.stats.total_words

theorem wordInv_addEntry (st : ParserState) (h : WordInv st) : WordInv (addEntry st) := by
  unfold WordInv at h ⊢
  rw [addEntry_total_words, addEntry_scenes, addEntry_entries, entriesWords_append]
  have he : entryWords
      (⟨st.scene_text,
        if isTruthy st.character_name then
          some ⟨st.character_name.getD [], st.dialogue_text⟩
        else none⟩ : Entry) ≤ wordCount st.scene_text + wordCount st.dialogue_text := by
    by_cases htr : isTruthy st.character_name <;> simp [entryWords, htr]
  omega

theorem wordInv_closePending (st : ParserState) (h : WordInv st) :
    WordInv (closePending st) := by
  unfold closePending
  split
  · exact wordInv_addEntry st h
  · exact h

theorem wordInv_addScene (st : ParserState) (h : WordInv st) :
    scenesWords (addScene st).scenes ≤ (addScene st).stats.total_words := by
  have h1 := wordInv_closePending st h
  unfold WordInv at h1
  rw [closePending_scenes] at h1
  rw [addScene_stats, addScene_scenes, scenesWords_append]
  exact h1

theorem wordInv_step (st : ParserState) (l : List Char) (st' : ParserState)
    (h : WordInv st) (hp : processLine st l = Except.ok st') : WordInv st' := by
  obtain ⟨st'', h2, hc⟩ := processLine_cases st l
  rw [hp] at h2
  injection h2 with h2
  subst h2
  rcases hc with rfl | ⟨nm, rfl⟩ | ⟨ln, rfl⟩ | ⟨ln, -, rfl⟩ | ⟨ln, rfl⟩
  · exact h
  · unfold WordInv
    rw [sceneStep_stats, sceneStep_scenes, sceneStep_entries]
    have h0 : entriesWords [] = 0 := rfl
    rw [h0, Nat.add_zero]
    exact wordInv_addScene st h
  · unfold WordInv
    rw [cueStep_stats, cueStep_scenes, cueStep_entries]
    by_cases htr : isTruthy st.character_name
    · rw [if_pos htr]
      have h3 := wordInv_addEntry st h
      unfold WordInv at h3
      rw [addEntry_scenes] at h3
      exact h3
    · rw [if_neg htr]
      exact h
  · exact h
  · unfold WordInv
    rw [descriptionStep_stats, descriptionStep_scenes, descriptionStep_entries]
    by_cases htr : isTruthy st.character_name
    · rw [if_pos htr]
      have h3 := wordInv_addEntry st h
      unfold WordInv at h3
      rw [addEntry_scenes] at h3
      exact h3
    · rw [if_neg htr]
      exact h

theorem wordInv_init : WordInv initState := by
  unfold WordInv
  exact Nat.le_refl 0

/-- Claim C7 counterexample: for the input [6 tabs + "ALICE", 5 tabs +
"hello", 6 tabs] the flushed dialogue entry contributes 1 to `total_words`,
but the entry is dropped at end of input (empty stripped cue makes the
character slot falsy and the description buffer is empty), so the returned
document has no entries at all: `total_words = 1` while the sum of the
whitespace-token counts over the document is 0. -/
theorem total_words_cex :
    (parseLines [(List.replicate 6 '\t' ++ "ALICE".toList),
        (List.replicate 5 '\t' ++ "hello".toList), (List.replicate 6 '\t')]).map
      (fun d => (d.stats.total_words, docWordCount d)) = Except.ok (1, 0) :=
  rfl

/-- Claim C7 as amended: `total_words` is an upper bound on the sum, over
every entry of every scene of the returned document, of the whitespace-token
counts of the description and (when present) dialogue strings; equality can
fail when entries flushed in the unfinished scene are dropped at end of
input, or when a pending dialogue buffer of a non-truthy character slot is
word-counted but not attached to the flushed entry. -/
theorem total_words_ge (L : List (List Char)) (d : ParsedObject)
    (h : parseLines L = Except.ok d) :
    docWordCount d ≤ d.stats.total_words := by
  unfold parseLines at h
  cases hr : runLines initState L with
  | error e =>
    rw [hr] at h
    cases h
  | ok st =>
    rw [hr] at h
    injection h with h
    subst h
    have hInv : WordInv st := runLines_inv WordInv wordInv_step L initState st wordInv_init hr
    show scenesWords (closeAtEnd st).scenes ≤ (closeAtEnd st).stats.total_words
    unfold closeAtEnd
    by_cases hp : st.scene_text ≠ [] ∨ isTruthy st.character_name = true
    · rw [if_pos hp]
      exact wordInv_addScene st hInv
    · rw [if_neg hp]
      unfold WordInv at hInv
      omega

/-- Claim C7 witness: the amended bound applied to a two-line dialogue input
whose document carries exactly the one counted word. -/
theorem total_words_ge_witness :
    parseLines [(List.replicate 6 '\t' ++ "ALICE".toList),
        (List.replicate 4 '\t' ++ "hello".toList)] =
      Except.ok ⟨[⟨"SCRIPT TITLE".toList, [⟨[], some ⟨"ALICE".toList, "hello ".toList⟩⟩]⟩],
        ⟨1, 1, 1, 1, 1⟩, [("ALICE".toList)]⟩ ∧
    docWordCount (⟨[⟨"SCRIPT TITLE".toList,
        [⟨[], some ⟨"ALICE".toList, "hello ".toList⟩⟩]⟩],
        ⟨1, 1, 1, 1, 1⟩, [("ALICE".toList)]⟩ : ParsedObject)
      ≤ (⟨[⟨"SCRIPT TITLE".toList, [⟨[], some ⟨"ALICE".toList, "hello ".toList⟩⟩]⟩],
        ⟨1, 1, 1, 1, 1⟩, [("ALICE".toList)]⟩ : ParsedObject).stats.total_words :=
  ⟨rfl,
    total_words_ge
      [(List.replicate 6 '\t' ++ "ALICE".toList), (List.replicate 4 '\t' ++ "hello".toList)]
      ⟨[⟨"SCRIPT TITLE".toList, [⟨[], some ⟨"ALICE".toList, "hello ".toList⟩⟩]⟩],
        ⟨1, 1, 1, 1, 1⟩, [("ALICE".toList)]⟩ rfl⟩

/-! ### Claim C9: the dialogue buffer and the active character -/

/-- Running invariant for claim C9: the dialogue buffer is non-empty only when
the character slot is not `None` (it may however hold the falsy empty string). -/
def DialogueCharInv (st : ParserState) : Prop :=
  st.dialogue_text ≠ [] → st.character_name ≠ none

theorem dialogueCharInv_step (st : ParserState) (l : List Char) (st' : ParserState)
    (h : DialogueCharInv st) (hp : processLine st l = Except.ok st') : DialogueCharInv st' := by
  obtain ⟨st'', h2, hc⟩ := processLine_cases st l
  rw [hp] at h2
  injection h2 with h2
  subst h2
  rcases hc with rfl | ⟨nm, rfl⟩ | ⟨ln, rfl⟩ | ⟨ln, hsome, rfl⟩ | ⟨ln, rfl⟩
  · exact h
  · intro h0
    rw [sceneStep_dialogue_text] at h0
    exact absurd rfl h0
  · intro _
    rw [cueStep_character_name]
    simp
  · intro _
    rw [dialogueStep_character_name]
    exact Option.ne_none_iff_isSome.2 hsome
  · intro h0
    rw [descriptionStep_dialogue_text] at h0
    rw [descriptionStep_character_name]
    by_cases htr : isTruthy st.character_name
    · rw [if_pos htr] at h0
      exact absurd rfl h0
    · rw [if_neg htr] at h0 ⊢
      exact h h0

theorem dialogueCharInv_init : DialogueCharInv initState :=
  fun h0 => absurd rfl h0

/-- Claim C9 counterexample: after the input [6 tabs + " ", 5 tabs + "hello"]
the whitespace-only cue makes the character slot the falsy empty string; the
5-tab line is still appended to the dialogue buffer (the dialogue branch
tests `is not None`); at end of input the pending-content check — description
buffer truthiness or character truthiness — fails, so the pending dialogue
"hello " is missed: the final state holds a non-empty dialogue buffer while
the returned document is empty.  The end-of-input check does miss pending
dialogue text, contradicting the claim's consequence. -/
theorem eof_misses_pending_dialogue :
    runLines initState [(List.replicate 6 '\t' ++ [' ']),
        (List.replicate 5 '\t' ++ "hello".toList)] =
      Except.ok ⟨[], "hello ".toList, "SCRIPT TITLE".toList, some [], ⟨0, 0, 0, 0, 0⟩,
        [], [], []⟩ ∧
    parseLines [(List.replicate 6 '\t' ++ [' ']), (List.replicate 5 '\t' ++ "hello".toList)] =
      Except.ok ⟨[], ⟨0, 0, 0, 0, 0⟩, []⟩ :=
  ⟨rfl, rfl⟩

/-- Claim C9 as amended: the invariant itself holds — at every reachable state
of the pass, a non-empty dialogue buffer implies the character slot is not
`None` — but the claimed consequence fails: the character slot may hold the
falsy empty string (from a whitespace-only cue line), in which case the
end-of-input pending-content check, which tests truthiness, misses the
pending dialogue text. -/
theorem dialogue_buffer_has_character (L : List (List Char)) (st : ParserState)
    (h : runLines initState L = Except.ok st) (hne : st.dialogue_text ≠ []) :
    st.character_name ≠ none :=
  runLines_inv DialogueCharInv dialogueCharInv_step L initState st dialogueCharInv_init h hne

/-- Claim C9 witness: the invariant applied to the state after a cue line and
one dialogue line. -/
theorem dialogue_buffer_has_character_witness :
    runLines initState [(List.replicate 6 '\t' ++ [('A' : Char)]),
        (List.replicate 4 '\t' ++ "hi".toList)] =
      Except.ok ⟨[], "hi ".toList, "SCRIPT TITLE".toList, some [('A' : Char)],
        ⟨0, 0, 0, 0, 0⟩, [], [], []⟩ ∧
    (⟨[], "hi ".toList, "SCRIPT TITLE".toList, some [('A' : Char)], ⟨0, 0, 0, 0, 0⟩,
        [], [], []⟩ : ParserState).dialogue_text ≠ [] ∧
    (⟨[], "hi ".toList, "SCRIPT TITLE".toList, some [('A' : Char)], ⟨0, 0, 0, 0, 0⟩,
        [], [], []⟩ : ParserState).character_name ≠ none :=
  ⟨rfl, by decide,
    dialogue_buffer_has_character
      [(List.replicate 6 '\t' ++ [('A' : Char)]), (List.replicate 4 '\t' ++ "hi".toList)]
      ⟨[], "hi ".toList, "SCRIPT TITLE".toList, some [('A' : Char)], ⟨0, 0, 0, 0, 0⟩,
        [], [], []⟩ rfl (by decide)⟩

/-! ### Claim C10: whitespace-only lines -/

theorem dropWhile_eq_of_all_false (p : Char → Bool) (l : List Char)
    (h : ∀ c ∈ l, p c = false) : l.dropWhile p = l := by
  cases l with
  | nil => rfl
  | cons a t =>
    rw [List.dropWhile_cons_of_neg (by simp [h a (List.mem_cons_self a t)])]

theorem dropWhile_eq_nil_of_all (p : Char → Bool) (l : List Char)
    (h : ∀ c ∈ l, p c = true) : l.dropWhile p = [] := by
  induction l with
  | nil => rfl
  | cons a t ih =>
    rw [List.dropWhile_cons_of_pos (h a (List.mem_cons_self a t))]
    exact ih (fun c hc => h c (List.mem_cons_of_mem a hc))

theorem stripNL_eq_self (l : List Char) (h : ∀ c ∈ l, c = ' ' ∨ c = '\t') :
    stripNL l = l := by
  unfold stripNL dropTrailing
  rw [dropWhile_eq_of_all_false _ l
    (fun c hc => by rcases h c hc with rfl | rfl <;> rfl)]
  rw [dropWhile_eq_of_all_false _ l.reverse
    (fun c hc => by rcases h c (List.mem_reverse.1 hc) with rfl | rfl <;> rfl)]
  exact List.reverse_reverse l

theorem stripWs_eq_nil (l : List Char) (h : ∀ c ∈ l, c = ' ' ∨ c = '\t') :
    stripWs l = [] := by
  unfold stripWs
  rw [dropWhile_eq_nil_of_all _ l
    (fun c hc => by rcases h c hc with rfl | rfl <;> rfl)]
  rfl

theorem whitespace_not_heading (l : List Char) (h : ∀ c ∈ l, c = ' ' ∨ c = '\t') :
    sceneHeadingMatch l = false := by
  have hlast : ¬l.getLast? = some '\n' := by
    intro hl
    rcases h _ (List.mem_of_getLast?_eq_some hl) with h1 | h1 <;>
      exact absurd h1 (by decide)
  unfold sceneHeadingMatch
  rw [if_neg hlast]
  cases l with
  | nil => rfl
  | cons a t =>
    have ha : ¬Char.isDigit a = true := by
      rcases h a (List.mem_cons_self a t) with rfl | rfl <;> decide
    simp [List.takeWhile_cons_of_neg ha]

theorem descriptionStep_scene_text (st : ParserState) (ln : List Char) :
    (descriptionStep st ln).scene_text =
      concatenateText ((if isTruthy st.character_name then addEntry st else st).scene_text)
        ln := rfl

theorem concatenateText_of_ws (buf l : List Char) (hbuf : ¬buf.getLast? = some '-')
    (hsw : stripWs l = []) : concatenateText buf l = buf ++ [' '] := by
  unfold concatenateText
  rw [if_neg hbuf, hsw]
  simp [toLowerStr]

/-- Claim C10 counterexample: the whitespace-only line of 4 tabs arrives while
"ALICE" is the active character, so it is classified as dialogue continuation,
not as scene description: it does not flush the entry, it appends the single
space to the dialogue buffer (the final dialogue text is " "), and the
description stays empty. -/
theorem whitespace_line_dialogue_cex :
    parseLines [(List.replicate 6 '\t' ++ "ALICE".toList), (List.replicate 4 '\t')] =
      Except.ok ⟨[⟨"SCRIPT TITLE".toList, [⟨[], some ⟨"ALICE".toList, [' ']⟩⟩]⟩],
        ⟨1, 1, 1, 0, 0⟩, [("ALICE".toList)]⟩ :=
  rfl

/-- Claim C10 as amended: a non-empty line consisting only of spaces and tabs
is never skipped, but it is classified like any other line by its leading-tab
count: only when the count is not 6 and the line is not a 4-or-5-tab line with
a non-`None` character does it become scene description — then it flushes the
running entry when a character is truthy and appends exactly one space to the
description buffer, which thereby becomes pending content.  (With 6 leading
tabs it is a character cue installing the empty name; with 4-5 leading tabs
and a non-`None` character it is appended to the dialogue buffer instead.) -/
theorem whitespace_line_description (st : ParserState) (l : List Char)
    (h1 : l ≠ []) (h2 : ∀ c ∈ l, c = ' ' ∨ c = '\t')
    (h4 : countLeadingTabs l ≠ 6)
    (h5 : countLeadingTabs l = 4 ∨ countLeadingTabs l = 5 → st.character_name = none)
    (hbuf : ¬st.scene_text.getLast? = some '-') :
    ∃ st', processLine st l = Except.ok st' ∧
      ((isTruthy st.character_name = true ∧ st'.entries.length = st.entries.length + 1 ∧
        st'.scene_text = [' ']) ∨
       (isTruthy st.character_name = false ∧ st'.entries = st.entries ∧
        st'.scene_text = st.scene_text ++ [' '])) := by
  have hs : stripNL l = l := stripNL_eq_self l h2
  have hsw : stripWs l = [] := stripWs_eq_nil l h2
  have hm : sceneHeadingMatch l = false := whitespace_not_heading l h2
  have hg : getSceneName l = Except.ok none := by
    unfold getSceneName
    rw [hm]
    simp
  have hemp : (stripNL l).isEmpty = false := by
    rw [hs]
    cases l with
    | nil => exact absurd rfl h1
    | cons a t => rfl
  have hnd : ¬((countLeadingTabs (stripNL l) = 4 ∨ countLeadingTabs (stripNL l) = 5) ∧
      st.character_name.isSome = true) := by
    rw [hs]
    rintro ⟨hcl, hsome⟩
    rw [h5 hcl] at hsome
    simp at hsome
  have hp := processLine_description st l none hemp (by rw [hs]; exact hg) rfl
    (by rw [hs]; exact h4) hnd
  rw [hs] at hp
  refine ⟨descriptionStep st l, hp, ?_⟩
  by_cases htr : isTruthy st.character_name
  · left
    refine ⟨htr, ?_, ?_⟩
    · rw [descriptionStep_entries, if_pos htr, addEntry_entries]
      simp
    · rw [descriptionStep_scene_text, if_pos htr, addEntry_scene_text,
        concatenateText_of_ws [] l (by simp) hsw]
      rfl
  · right
    rw [Bool.not_eq_true] at htr
    refine ⟨htr, ?_, ?_⟩
    · rw [descriptionStep_entries, htr]
      simp
    · rw [descriptionStep_scene_text, htr]
      simp
      exact concatenateText_of_ws st.scene_text l hbuf hsw

/-- Claim C10 witness: the amended statement applied to the initial state and
the single-space line. -/
theorem whitespace_line_description_witness :
    (([' '] : List Char) ≠ []) ∧ (∀ c ∈ ([' '] : List Char), c = ' ' ∨ c = '\t') ∧
    countLeadingTabs [' '] ≠ 6 ∧
    (countLeadingTabs [' '] = 4 ∨ countLeadingTabs [' '] = 5 →
      initState.character_name = none) ∧
    (¬initState.scene_text.getLast? = some '-') ∧
    (∃ st', processLine initState [' '] = Except.ok st' ∧
      ((isTruthy initState.character_name = true ∧
        st'.entries.length = initState.entries.length + 1 ∧ st'.scene_text = [' ']) ∨
       (isTruthy initState.character_name = false ∧ st'.entries = initState.entries ∧
        st'.scene_text = initState.scene_text ++ [' ']))) :=
  ⟨by decide, by decide, by decide, fun _ => rfl, by decide,
    whitespace_line_description initState [' '] (by decide) (by decide) (by decide)
      (fun _ => rfl) (by decide)⟩

/-- Claim C2 witness: a one-line input whose document has a non-empty scenes
list headed by the synthetic "SCRIPT TITLE" scene. -/
theorem first_scene_title_witness :
    parseLines [("hello".toList)] =
      Except.ok ⟨[⟨"SCRIPT TITLE".toList, [⟨"hello ".toList, none⟩]⟩], ⟨0, 1, 0, 1, 0⟩, []⟩ ∧
    (⟨[⟨"SCRIPT TITLE".toList, [⟨"hello ".toList, none⟩]⟩], ⟨0, 1, 0, 1, 0⟩, []⟩ :
        ParsedObject).scenes.head? = some ⟨"SCRIPT TITLE".toList, [⟨"hello ".toList, none⟩]⟩ ∧
    (⟨"SCRIPT TITLE".toList, [⟨"hello ".toList, none⟩]⟩ : Scene).name = "SCRIPT TITLE".toList :=
  ⟨rfl, rfl,
    first_scene_title [("hello".toList)]
      ⟨[⟨"SCRIPT TITLE".toList, [⟨"hello ".toList, none⟩]⟩], ⟨0, 1, 0, 1, 0⟩, []⟩ rfl
      ⟨"SCRIPT TITLE".toList, [⟨"hello ".toList, none⟩]⟩ rfl⟩
